import Mathlib

/-!
Shallow embedding of the arc_qqbot repository (resource manager, image
uploader, message handler facade) together with theorems settling the
frozen claims about it.

Conventions of the embedding:
* Python strings are Lean `String` values; `str.lower()` is modelled on the
  ASCII range (`Char.toLower`), `str.strip()` strips the ASCII whitespace
  characters Python strips.
* Python dicts that the code iterates are modelled as insertion-ordered
  association lists `List (String × _)` (CPython dicts preserve insertion
  order, as does orjson).
* The filesystem and the network are explicit parameters (`fexists`,
  `fsize`, `fbytes`, a network oracle), so that every code path is a pure
  function of them.
-/

abbrev Str := String

/-- Model of Python `str.lower()` restricted to ASCII letters. -/
def lowerStr (s : Str) : Str := ⟨s.data.map Char.toLower⟩

/-- The whitespace characters removed by Python `str.strip()` (ASCII part). -/
def isPySpace (c : Char) : Bool :=
  c = ' ' || c = '\t' || c = '\n' || c = '\r' || c = '\x0b' || c = '\x0c'

/-- Model of Python `str.strip()`. -/
def stripStr (s : Str) : Str :=
  ⟨((s.data.dropWhile isPySpace).reverse.dropWhile isPySpace).reverse⟩

/-- Does list `p` start list `s`?  (Helper for substring containment.) -/
def startsWithL : List Char → List Char → Bool
  | [], _ => true
  | _ :: _, [] => false
  | a :: ps, b :: ss => a = b && startsWithL ps ss

/-- Helper: `p` occurs as a contiguous sublist of `s`. -/
def subListB (p : List Char) : List Char → Bool
  | [] => p.isEmpty
  | b :: t => startsWithL p (b :: t) || subListB p t

/-- Model of the Python substring test `p in s`. -/
def containsStr (p s : Str) : Bool := subListB p.data s.data

/-- One per-level entry of a weapon (value of the `levels` dict). -/
structure LevelEntry where
  filename : Option Str := none
deriving Repr, DecidableEq, Inhabited

/-- A resource entry as stored in a category JSON file.  Only the fields the
code reads are modelled; a missing JSON field is `none` / `[]`. -/
structure Resource where
  name : Option Str := none
  aliases : List Str := []
  filename : Option Str := none
  description : Option Str := none
  rtype : Option Str := none
  levels : List (Str × LevelEntry) := []
deriving Repr, DecidableEq, Inhabited

/-- A category mapping: ordered key/resource pairs. -/
abbrev CatMap := List (Str × Resource)

/-- The in-memory state of `ResourceManager` (its three category dicts and
the resource directory). -/
structure ResourceManager where
  resource_dir : Str := "resources"
  maps : CatMap := []
  weapons : CatMap := []
  arc : CatMap := []
deriving Repr, DecidableEq, Inhabited

/-- `self.resources[category]`, with the membership test of
`find_resource` (the dict always has exactly the three keys). -/
def getCategory (rm : ResourceManager) (category : Str) : Option CatMap :=
  if category = "maps" then some rm.maps
  else if category = "weapons" then some rm.weapons
  else if category = "arc" then some rm.arc
  else none

/-- Path joining `a / b` as the code builds it with `pathlib`. -/
def pathJoin (a b : Str) : Str := a ++ "/" ++ b

/-- The dict returned by `ResourceManager._build_resource_info`. -/
structure ResourceInfo where
  key : Str
  category : Str
  name : Str
  filename : Option Str
  file_path : Option Str
  description : Str
  rtype : Str
  aliases : List Str
  file_exists : Bool
deriving Repr, DecidableEq, Inhabited

/-- `ResourceManager._build_resource_info`: `fs` is the filesystem
existence oracle (`Path.exists`).  `if filename:` is falsy on both a
missing key and an empty string. -/
def buildResourceInfo (fs : Str → Bool) (dir category key : Str)
    (r : Resource) : ResourceInfo :=
  let fp : Option Str :=
    match r.filename with
    | some f => if f = "" then none else some (pathJoin (pathJoin dir category) f)
    | none => none
  { key := key
    category := category
    name := r.name.getD key
    filename := r.filename
    file_path := fp
    description := r.description.getD ""
    rtype := r.rtype.getD ""
    aliases := r.aliases
    file_exists := match fp with | some p => fs p | none => false }

/-- The per-entry test of the exact-match loop of `find_resource`:
`key.lower() == q or resource.get('name','').lower() == q`, and on the
same iteration the alias test `any(alias.lower() == q)`. -/
def exactEntryMatch (q : Str) (kv : Str × Resource) : Bool :=
  (lowerStr kv.1 = q || lowerStr (kv.2.name.getD "") = q)
    || kv.2.aliases.any (fun a => lowerStr a = q)

/-- The per-entry test of the fuzzy loop of `find_resource`:
`q in key.lower() or q in name.lower()`, then `any(q in alias.lower())`. -/
def fuzzyEntryMatch (q : Str) (kv : Str × Resource) : Bool :=
  (containsStr q (lowerStr kv.1) || containsStr q (lowerStr (kv.2.name.getD "")))
    || kv.2.aliases.any (fun a => containsStr q (lowerStr a))

/-- `ResourceManager.find_resource`.  The two Python loops are the two
`List.find?` passes; within one loop iteration both the key/name test and
the alias test fire for the same entry, so one pass per phase suffices. -/
def find_resource (fs : Str → Bool) (rm : ResourceManager)
    (category query : Str) : Option ResourceInfo :=
  match getCategory rm category with
  | none => none
  | some entries =>
    let q := stripStr (lowerStr query)
    match entries.find? (exactEntryMatch q) with
    | some kv => some (buildResourceInfo fs rm.resource_dir category kv.1 kv.2)
    | none =>
      match entries.find? (fuzzyEntryMatch q) with
      | some kv => some (buildResourceInfo fs rm.resource_dir category kv.1 kv.2)
      | none => none

/-! ### Loading and reloading (`load_resources` / `reload_resources`) -/

/-- What the disk holds for one category file at load time: the file is
missing, it exists but reading/parsing raises, or it parses to a mapping. -/
inductive LoadOutcome where
  | missing
  | loadError
  | ok (data : CatMap)
deriving Repr, DecidableEq

/-- One iteration of the `load_resources` loop on one category: a missing
file logs a warning and `continue`s (success flag untouched), an exception
logs an error and clears the success flag, and only a successful parse
replaces the stored mapping. -/
def loadCategory (cur : CatMap) : LoadOutcome → CatMap × Bool
  | .missing => (cur, true)
  | .loadError => (cur, false)
  | .ok d => (d, true)

/-- `ResourceManager.load_resources`: iterates the three category files in
declaration order; `disk` tells what each category file yields. -/
def load_resources (rm : ResourceManager) (disk : Str → LoadOutcome) :
    ResourceManager × Bool :=
  let m := loadCategory rm.maps (disk "maps")
  let w := loadCategory rm.weapons (disk "weapons")
  let a := loadCategory rm.arc (disk "arc")
  ({ rm with maps := m.1, weapons := w.1, arc := a.1 }, m.2 && w.2 && a.2)

/-- `ResourceManager.reload_resources` simply calls `load_resources`. -/
def reload_resources (rm : ResourceManager) (disk : Str → LoadOutcome) :
    ResourceManager × Bool :=
  load_resources rm disk

/-! ### Leveled weapon lookup (`find_weapon_with_level`) -/

/-- Value of one decimal digit character. -/
def digitVal (c : Char) : Nat := c.toNat - '0'.toNat

/-- Model of Python `int(s)` on an optional minus sign followed by decimal
digits (the only shapes the level keys take); leading zeros are accepted,
so `int("01") = int("1") = 1`. -/
def strToInt (s : Str) : Int :=
  match s.data with
  | '-' :: ds => -(ds.foldl (fun n c => n * 10 + digitVal c) 0 : Nat)
  | ds => (ds.foldl (fun n c => n * 10 + digitVal c) 0 : Nat)

/-- Model of Python `str(level)` for an integer level. -/
def intToStr (n : Int) : Str := toString n

/-- The `level_info` sub-dict of the selected-level result. -/
structure LevelInfoOut where
  filename : Option Str
  file_path : Option Str
  file_exists : Bool
deriving Repr, DecidableEq, Inhabited

/-- The dict returned by `find_weapon_with_level`.  Keys that a branch does
not put into the dict are `none`. -/
structure WeaponLevelResult where
  has_levels : Bool
  weapon_data : ResourceInfo
  levels_available : List Int
  need_level_selection : Option Bool := none
  invalid_level : Option Int := none
  selected_level : Option Int := none
  level_info : Option LevelInfoOut := none
deriving Repr, DecidableEq, Inhabited

/-- `ResourceManager.find_weapon_with_level`.  Python `sorted` on integers
is an ascending (non-decreasing) stable sort, modelled by
`List.insertionSort`. -/
def find_weapon_with_level (fs : Str → Bool) (rm : ResourceManager)
    (query : Str) (level : Option Int) : Option WeaponLevelResult :=
  match find_resource fs rm "weapons" query with
  | none => none
  | some weapon =>
    let weapon_data := (List.lookup weapon.key rm.weapons).getD {}
    let levels_data := weapon_data.levels
    if levels_data = [] then
      some { has_levels := false, weapon_data := weapon, levels_available := [] }
    else
      let levels_available :=
        List.insertionSort (· ≤ ·) (levels_data.map (fun kv => strToInt kv.1))
      match level with
      | none =>
        some { has_levels := true, weapon_data := weapon
               levels_available := levels_available
               need_level_selection := some true }
      | some lv =>
        if lv ∉ levels_available then
          some { has_levels := true, weapon_data := weapon
                 levels_available := levels_available
                 invalid_level := some lv
                 need_level_selection := some true }
        else
          let li := (List.lookup (intToStr lv) levels_data).getD {}
          let fp := pathJoin (pathJoin rm.resource_dir "weapons") (li.filename.getD "")
          some { has_levels := true, weapon_data := weapon
                 levels_available := levels_available
                 selected_level := some lv
                 level_info := some { filename := li.filename
                                      file_path := some fp
                                      file_exists := fs fp }
                 need_level_selection := some false }

/-! ### Image uploader (`ImageUploader`) -/

/-- The filesystem as the uploader and the message handler see it:
existence, size in bytes (`Path.stat().st_size`), and content
(`read_bytes`, as a byte list). -/
structure FileSys where
  fexists : Str → Bool
  fsize : Str → Nat
  fbytes : Str → List Nat

/-- The base64 alphabet character for one 6-bit value. -/
def b64Char (n : Nat) : Char :=
  if n < 26 then Char.ofNat ('A'.toNat + n)
  else if n < 52 then Char.ofNat ('a'.toNat + (n - 26))
  else if n < 62 then Char.ofNat ('0'.toNat + (n - 52))
  else if n = 62 then '+' else '/'

/-- Model of `base64.b64encode` on a byte list (3-byte groups to 4
alphabet characters, `=` padding). -/
def b64encode : List Nat → Str
  | [] => ""
  | [a] =>
    let v := a % 256 * 65536
    ⟨[b64Char (v / 262144), b64Char (v / 4096 % 64), '=', '=']⟩ ++ ""
  | [a, b] =>
    let v := a % 256 * 65536 + b % 256 * 256
    ⟨[b64Char (v / 262144), b64Char (v / 4096 % 64), b64Char (v / 64 % 64), '=']⟩ ++ ""
  | a :: b :: c :: rest =>
    let v := a % 256 * 65536 + b % 256 * 256 + c % 256
    (⟨[b64Char (v / 262144), b64Char (v / 4096 % 64), b64Char (v / 64 % 64),
       b64Char (v % 64)]⟩ : Str) ++ b64encode rest

/-- `ImageUploader._get_mime_type`: extension (lower-cased) to MIME type,
defaulting to `image/png`. -/
def get_mime_type (file_extension : Str) : Str :=
  let e := lowerStr file_extension
  if e = ".png" then "image/png"
  else if e = ".jpg" then "image/jpeg"
  else if e = ".jpeg" then "image/jpeg"
  else if e = ".gif" then "image/gif"
  else if e = ".webp" then "image/webp"
  else if e = ".bmp" then "image/bmp"
  else "image/png"

/-- Model of `pathlib.Path(p).suffix` for a plain file path: the last
dot-suffix of the final path component, empty when that component has no
dot after its first character. -/
def pathSuffix (p : Str) : Str :=
  let comp := (p.data.reverse.takeWhile (fun c => c ≠ '/')).reverse
  match comp with
  | [] => ""
  | _ :: rest =>
    if (rest.filter (fun c => c = '.')).isEmpty then ""
    else ⟨'.' :: (rest.reverse.takeWhile (fun c => c ≠ '.')).reverse⟩

/-- The JSON body a successful HTTP exchange with the upload API yields:
HTTP status, the `code` field and the `image_url` field (absent keys are
`none`). -/
structure ApiResponse where
  status : Nat
  code : Option Int := none
  image_url : Option Str := none

/-- What one POST to the upload API does: times out, fails at the request
layer, or produces a response. -/
inductive NetOutcome where
  | timeout
  | requestError
  | resp (r : ApiResponse)

/-- `ImageUploader._upload_to_api`: performs exactly one network call and
validates HTTP status, business `code` and a truthy `image_url` (both a
missing key and an empty string are falsy).  Returns the URL (or `none`)
together with the number of network calls performed. -/
def upload_to_api (net : Str → NetOutcome) (data_uri : Str) :
    Option Str × Nat :=
  (match net data_uri with
   | .timeout => none
   | .requestError => none
   | .resp r =>
     if r.status ≠ 200 then none
     else if r.code ≠ some 200 then none
     else match r.image_url with
          | none => none
          | some u => if u = "" then none else some u
   , 1)

/-- `ImageUploader.upload_image_from_bytes`: builds the base64 data URI
and delegates to `upload_to_api`. -/
def upload_image_from_bytes (net : Str → NetOutcome) (image_bytes : List Nat)
    (file_extension : Str) : Option Str × Nat :=
  let mime := get_mime_type file_extension
  let data_uri := "data:" ++ mime ++ ";base64," ++ b64encode image_bytes
  upload_to_api net data_uri

/-- `ImageUploader.upload_image_from_path`: rejects a missing file and a
file strictly larger than 10 MiB before any network traffic, otherwise
reads the bytes and uploads them. -/
def upload_image_from_path (fsys : FileSys) (net : Str → NetOutcome)
    (image_path : Str) : Option Str × Nat :=
  if fsys.fexists image_path = false then (none, 0)
  else if fsys.fsize image_path > 10 * 1024 * 1024 then (none, 0)
  else upload_image_from_bytes net (fsys.fbytes image_path) (pathSuffix image_path)

/-! ### Message handler facade (`MessageHandler`) -/

/-- Origin of the inbound message, as `send_image_from_path` branches on
it: a `GroupMessage` raw message, a raw message with a `channel_id`, or
anything else (the direct / private branch). -/
inductive Origin where
  | group (group_openid msg_id : Str)
  | channel (channel_id msg_id : Str)
  | direct (user_id msg_id : Str)
deriving Repr, DecidableEq

/-- The platform API call `send_image_from_path` ends in. -/
inductive PlatformCall where
  | toGroup (group_id content msg_id image_url : Str)
  | toChannel (channel_id content msg_id image_url : Str)
  | toUser (user_id content msg_id : Str) (file_image : List Nat)
deriving Repr, DecidableEq

/-- Observable effects of one `send_image_from_path` call: whether the
upload pipeline ran, which platform call (if any) was made, and the
returned boolean. -/
structure SendEffects where
  uploadInvoked : Bool
  platformCall : Option PlatformCall
  result : Bool
deriving Repr, DecidableEq

/-- `MessageHandler.send_image_from_path`: checks existence, uploads the
file through `ImageUploader` (unconditionally, for every origin), aborts
when no URL came back, then branches on the raw message type; the group
and channel branches send the uploaded URL, the direct branch sends the
raw file bytes.  `apiOk` abstracts the boolean the platform API returns. -/
def send_image_from_path (fsys : FileSys) (net : Str → NetOutcome)
    (apiOk : PlatformCall → Bool) (origin : Origin) (image_path : Str) :
    SendEffects :=
  if fsys.fexists image_path = false then
    { uploadInvoked := false, platformCall := none, result := false }
  else
    match (upload_image_from_path fsys net image_path).1 with
    | none => { uploadInvoked := true, platformCall := none, result := false }
    | some image_url =>
      if image_url = "" then
        { uploadInvoked := true, platformCall := none, result := false }
      else
        let call : PlatformCall :=
          match origin with
          | .group gid mid => .toGroup gid "" mid image_url
          | .channel cid mid => .toChannel cid "" mid image_url
          | .direct uid mid => .toUser uid "" mid (fsys.fbytes image_path)
        { uploadInvoked := true, platformCall := some call, result := apiOk call }

/-! ### Image format normalization (`MessageHandler.ensure_image_format`)

PIL is an external library; it is modelled at the level the code observes:
a byte string either fails to decode (`Image.open` raises) or decodes to
an image with a format tag and a pixel mode.  The decoded modes carrying
an alpha channel in Pillow are RGBA and LA (alpha-bearing WebP/TGA/ICO
decode to RGBA, grayscale-with-alpha to LA); pixel content is abstracted
to an opaque value, since no claim constrains pixel values. -/

/-- A Pillow pixel mode as produced by decoding an image file. -/
inductive ImgMode where
  | RGBA
  | LA
  | RGB
  | L
  | P
  | CMYK
deriving Repr, DecidableEq

/-- A byte string as the PIL layer classifies it: undecodable raw bytes,
or a decodable image with format, mode and (abstracted) pixel content. -/
inductive ImgBytes where
  | undecodable (raw : List Nat)
  | image (format : Str) (mode : ImgMode) (pix : Nat)
deriving Repr, DecidableEq

/-- Which modes carry an alpha channel. -/
def hasAlphaChannel : ImgMode → Bool
  | .RGBA => true
  | .LA => true
  | _ => false

/-- Compositing onto a white RGB background; the pixel content is
abstracted, only the mode change matters to the claims. -/
def compositeOnWhite (pix : Nat) : Nat := pix

/-- Which modes the Pillow PNG encoder accepts: `img.save(..., 'PNG')`
raises `OSError: cannot write mode CMYK as PNG` on a CMYK image, while
the remaining decoded modes are PNG-encodable. -/
def pngEncodable : ImgMode → Bool
  | .CMYK => false
  | _ => true

/-- Does a byte string decode as a PNG image? -/
def decodesAsPNG : ImgBytes → Bool
  | .image fmt _ _ => fmt = "PNG"
  | .undecodable _ => false

/-- `MessageHandler.ensure_image_format`: PNG and JPEG inputs are
returned unchanged and undecodable input is returned unchanged (the
except branch catches the `Image.open` failure).  Any other decodable
format is re-encoded as PNG, compositing RGBA/LA images onto a white RGB
background first; but the except wraps the whole body, so when the PNG
encoder rejects the mode (CMYK) the `img.save` raises and the original
bytes are returned unchanged. -/
def ensure_image_format : ImgBytes → ImgBytes
  | .undecodable raw => .undecodable raw
  | .image fmt mode pix =>
    if fmt = "PNG" ∨ fmt = "JPEG" then .image fmt mode pix
    else if mode = .RGBA ∨ mode = .LA then .image "PNG" .RGB (compositeOnWhite pix)
    else if pngEncodable mode then .image "PNG" mode pix
    else .image fmt mode pix

/-! ### Concrete fixtures used by counterexamples and witnesses -/

/-- A filesystem oracle on which no path exists. -/
def fsNone : Str → Bool := fun _ => false

/-- Fixture for the alias-versus-key ordering counterexample: the first
entry only alias-matches the query `q`, the second key-matches it. -/
def rmC3 : ResourceManager :=
  { maps := [("a", { name := some "A", aliases := ["q"] }),
             ("q", { name := some "Q" })] }

/-- Fixture for exact-over-fuzzy precedence: spec example with entries
`rifle` and `riflex`. -/
def rmC5 : ResourceManager :=
  { maps := [("riflex", { name := some "Rifle X" }),
             ("rifle", { name := some "Rifle" })] }

/-- Fixture for the whitespace-query theorem: one arc entry with no empty
key, name or alias. -/
def rmC10 : ResourceManager :=
  { arc := [("entry", { name := some "Entry" })] }

/-- Disk outcome fixture with the maps file missing and the other two
category files parsing to empty mappings. -/
def diskC2 : Str → LoadOutcome :=
  fun c => if c = "maps" then .missing else .ok []

/-- Disk outcome fixture: weapons file raises on load, maps parses. -/
def diskC8 : Str → LoadOutcome :=
  fun c => if c = "weapons" then .loadError
           else if c = "maps" then .ok [("m", {})]
           else .ok []

/-- Fixture manager state prior to a reload. -/
def rmC8 : ResourceManager :=
  { weapons := [("w", { name := some "W" })] }

/-- Fixture weapon mapping where two level keys parse to the same
integer. -/
def rmC4 : ResourceManager :=
  { weapons :=
      [("gun",
        { name := some "Gun"
          levels := [("1", { filename := some "g1.png" }),
                     ("01", { filename := some "g01.png" })] })] }

/-- Fixture weapon mapping with levels 1 and 2. -/
def rmC7 : ResourceManager :=
  { weapons :=
      [("gun",
        { name := some "Gun"
          levels := [("1", { filename := some "g1.png" }),
                     ("2", { filename := some "g2.png" })] })] }

/-- The result record `find_weapon_with_level` yields on `rmC7` when no
level is requested. -/
def r7none : WeaponLevelResult :=
  { has_levels := true
    weapon_data := buildResourceInfo fsNone "resources" "weapons" "gun"
      { name := some "Gun"
        levels := [("1", { filename := some "g1.png" }),
                   ("2", { filename := some "g2.png" })] }
    levels_available := [1, 2]
    need_level_selection := some true }

/-- A network oracle that always times out. -/
def netDown : Str → NetOutcome := fun _ => .timeout

/-- A network oracle whose upload always succeeds with a fixed URL. -/
def netOK : Str → NetOutcome :=
  fun _ => .resp { status := 200, code := some 200, image_url := some "http://u/i.png" }

/-- A filesystem with no files at all. -/
def fsysEmpty : FileSys :=
  { fexists := fun _ => false, fsize := fun _ => 0, fbytes := fun _ => [] }

/-- A filesystem with one small four-byte file everywhere. -/
def fsysSmall : FileSys :=
  { fexists := fun _ => true, fsize := fun _ => 4, fbytes := fun _ => [1, 2, 3, 4] }

/-- A filesystem whose files are exactly 10 MiB. -/
def fsysTenMiB : FileSys :=
  { fexists := fun _ => true, fsize := fun _ => 10 * 1024 * 1024,
    fbytes := fun _ => [0] }

/-- A platform API stub that reports success. -/
def apiAlwaysOk : PlatformCall → Bool := fun _ => true

/-! ## Shared helper lemmas -/

lemma subListB_nil (s : List Char) : subListB [] s = true := by
  cases s <;> simp [subListB, startsWithL, List.isEmpty]

lemma containsStr_empty (s : Str) : containsStr "" s = true := by
  have h := subListB_nil s.data
  simpa [containsStr] using h

lemma toLower_pySpace {c : Char} (h : isPySpace c = true) : c.toLower = c := by
  simp only [isPySpace, Bool.or_eq_true, decide_eq_true_eq] at h
  rcases h with ((((h | h) | h) | h) | h) | h <;> subst h <;> decide

lemma lowerStr_data (s : Str) : (lowerStr s).data = s.data.map Char.toLower := rfl

lemma stripStr_eq_empty {s : Str} (h : ∀ c ∈ s.data, isPySpace c = true) :
    stripStr s = "" := by
  have h1 : s.data.dropWhile isPySpace = [] := List.dropWhile_eq_nil_iff.mpr h
  simp only [stripStr, h1, List.reverse_nil, List.dropWhile_nil]

lemma normalized_whitespace_query {q : Str} (h : ∀ c ∈ q.data, isPySpace c = true) :
    stripStr (lowerStr q) = "" := by
  refine stripStr_eq_empty ?_
  intro c hc
  rw [lowerStr_data] at hc
  obtain ⟨a, ha, rfl⟩ := List.mem_map.mp hc
  rw [toLower_pySpace (h a ha)]
  exact h a ha

lemma lowerStr_eq_empty_iff (s : Str) : lowerStr s = "" ↔ s = "" := by
  rw [String.ext_iff, String.ext_iff, lowerStr_data]
  show s.data.map Char.toLower = [] ↔ s.data = []
  exact List.map_eq_nil_iff

lemma find?_append_first {α} (p : α → Bool) (l₁ l₂ : List α) (a : α)
    (h1 : ∀ x ∈ l₁, p x = false) (h2 : p a = true) :
    (l₁ ++ a :: l₂).find? p = some a := by
  induction l₁ with
  | nil => simpa using List.find?_cons_of_pos _ h2
  | cons x xs ih =>
    have hx : ¬ p x = true := by simp [h1 x (by simp)]
    simp only [List.cons_append]
    rw [List.find?_cons_of_neg _ hx]
    exact ih (fun y hy => h1 y (by simp [hy]))

lemma lookup_mem {α β} [BEq α] [LawfulBEq α] {l : List (α × β)} {a : α} {b : β}
    (h : List.lookup a l = some b) : (a, b) ∈ l := by
  induction l with
  | nil => simp [List.lookup] at h
  | cons x xs ih =>
    obtain ⟨k, v⟩ := x
    simp only [List.lookup] at h
    split at h
    next heq =>
      have hk : a = k := by simpa using heq
      have hv : v = b := by simpa using h
      subst hk; subst hv
      exact List.mem_cons_self _ _
    next => exact List.mem_cons_of_mem _ (ih h)

lemma sorted_lt_of_sorted_le_nodup {l : List Int}
    (h1 : List.Sorted (· ≤ ·) l) (h2 : l.Nodup) : List.Sorted (· < ·) l :=
  (List.Pairwise.and h1 h2).imp (fun h => lt_of_le_of_ne h.1 h.2)

/-! ## Claim C2 -/

/-- C2 counterexample: with the maps file missing at reload time and the
other two category files parsing to empty mappings, `reload_resources`
returns true, not the aggregate failure value the claim requires for a
missing source file. -/
theorem reload_missing_file_counterexample :
    diskC2 "maps" = .missing ∧ diskC2 "weapons" = .ok [] ∧ diskC2 "arc" = .ok [] ∧
    (reload_resources {} diskC2).2 = true := by
  decide

/-- C2 (amended): `reload_resources` returns true iff no category file
raised an error while being read or parsed; a missing category file is
skipped with a warning and does not make the aggregate flag false. -/
theorem reload_success_iff_no_load_error (rm : ResourceManager)
    (disk : Str → LoadOutcome) :
    (reload_resources rm disk).2 = true ↔
      disk "maps" ≠ .loadError ∧ disk "weapons" ≠ .loadError ∧
        disk "arc" ≠ .loadError := by
  rcases hm : disk "maps" with _ | _ | dm <;>
    rcases hw : disk "weapons" with _ | _ | dw <;>
      rcases ha : disk "arc" with _ | _ | da <;>
        simp [reload_resources, load_resources, loadCategory, hm, hw, ha]

/-- C2 witness: the amended equivalence evaluated at the concrete state
with the maps file missing. -/
theorem reload_success_iff_no_load_error_witness :
    (reload_resources {} diskC2).2 = true :=
  (reload_success_iff_no_load_error {} diskC2).mpr (by decide)

/-! ## Claim C8 -/

/-- C8: a category whose file is missing or whose load raises keeps its
previous in-memory mapping after `load_resources`, and every category
whose file parses is still replaced by the newly read mapping in the same
call. -/
theorem load_failure_preserves_category (rm : ResourceManager)
    (disk : Str → LoadOutcome) (c : Str)
    (hc : c = "maps" ∨ c = "weapons" ∨ c = "arc")
    (hfail : disk c = .missing ∨ disk c = .loadError) :
    getCategory (load_resources rm disk).1 c = getCategory rm c ∧
    ∀ c2 d, (c2 = "maps" ∨ c2 = "weapons" ∨ c2 = "arc") → disk c2 = .ok d →
      getCategory (load_resources rm disk).1 c2 = some d := by
  constructor
  · rcases hc with rfl | rfl | rfl <;> rcases hfail with hf | hf <;>
      simp [load_resources, getCategory, loadCategory, hf]
  · intro c2 d hc2 hd
    rcases hc2 with rfl | rfl | rfl <;>
      simp [load_resources, getCategory, loadCategory, hd]

/-- C8 witness: concrete reload where the weapons file raises on load and
the maps file parses; the weapons mapping is preserved, the maps mapping
is replaced. -/
theorem load_failure_preserves_category_witness :
    getCategory (load_resources rmC8 diskC8).1 "weapons" = getCategory rmC8 "weapons" ∧
    getCategory (load_resources rmC8 diskC8).1 "maps" = some [("m", {})] :=
  ⟨(load_failure_preserves_category rmC8 diskC8 "weapons"
      (Or.inr (Or.inl rfl)) (Or.inr (by decide))).1,
   (load_failure_preserves_category rmC8 diskC8 "weapons"
      (Or.inr (Or.inl rfl)) (Or.inr (by decide))).2 "maps" [("m", {})]
      (Or.inl rfl) (by decide)⟩

/-! ## Claim C6 -/

/-- C6: a missing file or a file strictly larger than 10 MiB makes
`upload_image_from_path` return `none` with zero network calls performed,
while an existing file of exactly 10 MiB passes the size check and
reaches the single network call. -/
theorem upload_size_guard (fsys : FileSys) (net : Str → NetOutcome) (path : Str) :
    ((fsys.fexists path = false ∨ 10 * 1024 * 1024 < fsys.fsize path) →
       upload_image_from_path fsys net path = (none, 0)) ∧
    (fsys.fexists path = true → fsys.fsize path = 10 * 1024 * 1024 →
       (upload_image_from_path fsys net path).2 = 1) := by
  constructor
  · rintro (h | h)
    · simp [upload_image_from_path, h]
    · rcases he : fsys.fexists path with _ | _
      · simp [upload_image_from_path, he]
      · simp [upload_image_from_path, he, h]
  · intro he hs
    simp [upload_image_from_path, he, hs, upload_image_from_bytes, upload_to_api]

/-- C6 witness: a filesystem without the file gives `(none, 0)`; a
filesystem whose file is exactly 10 MiB reaches the network call. -/
theorem upload_size_guard_witness :
    upload_image_from_path fsysEmpty netDown "a.png" = (none, 0) ∧
    (upload_image_from_path fsysTenMiB netDown "a.png").2 = 1 :=
  ⟨(upload_size_guard fsysEmpty netDown "a.png").1 (Or.inl rfl),
   (upload_size_guard fsysTenMiB netDown "a.png").2 rfl rfl⟩

/-! ## Claim C9 -/

/-- C9 counterexample: a decodable CMYK input of a non-PNG format (a CMYK
TIFF) is returned unchanged, because the PNG encoder rejects mode CMYK,
the save raises, and the except branch returns the original bytes; the
result does not decode as PNG, refuting the universal claim. -/
theorem ensure_image_format_cmyk_counterexample :
    ensure_image_format (.image "TIFF" .CMYK 3) = .image "TIFF" .CMYK 3 ∧
    decodesAsPNG (ensure_image_format (.image "TIFF" .CMYK 3)) = false := by
  decide

/-- C9 (amended): `ensure_image_format` returns PNG inputs and JPEG
inputs unchanged; an input of any other decodable format whose mode the
PNG encoder accepts comes back as PNG bytes carrying no alpha channel
(RGBA/LA composited onto white RGB first), while an input whose mode the
PNG encoder rejects (CMYK) makes the re-encode raise and is returned
unchanged, keeping its original format. -/
theorem ensure_image_format_policy :
    (∀ mode pix, ensure_image_format (.image "PNG" mode pix) = .image "PNG" mode pix) ∧
    (∀ mode pix, ensure_image_format (.image "JPEG" mode pix) = .image "JPEG" mode pix) ∧
    (∀ fmt mode pix, fmt ≠ "PNG" → fmt ≠ "JPEG" →
       (pngEncodable mode = true →
          ∃ m p, ensure_image_format (.image fmt mode pix) = .image "PNG" m p ∧
            hasAlphaChannel m = false) ∧
       (pngEncodable mode = false →
          ensure_image_format (.image fmt mode pix) = .image fmt mode pix)) := by
  refine ⟨fun mode pix => by simp [ensure_image_format],
          fun mode pix => by simp [ensure_image_format],
          fun fmt mode pix h1 h2 => ⟨?_, ?_⟩⟩
  · intro henc
    cases mode with
    | RGBA => exact ⟨.RGB, compositeOnWhite pix, by simp [ensure_image_format, h1, h2], rfl⟩
    | LA => exact ⟨.RGB, compositeOnWhite pix, by simp [ensure_image_format, h1, h2], rfl⟩
    | RGB => exact ⟨.RGB, pix, by simp [ensure_image_format, h1, h2, pngEncodable], rfl⟩
    | L => exact ⟨.L, pix, by simp [ensure_image_format, h1, h2, pngEncodable], rfl⟩
    | P => exact ⟨.P, pix, by simp [ensure_image_format, h1, h2, pngEncodable], rfl⟩
    | CMYK => exact absurd henc (by simp [pngEncodable])
  · intro henc
    cases mode with
    | RGBA => exact absurd henc (by simp [pngEncodable])
    | LA => exact absurd henc (by simp [pngEncodable])
    | RGB => exact absurd henc (by simp [pngEncodable])
    | L => exact absurd henc (by simp [pngEncodable])
    | P => exact absurd henc (by simp [pngEncodable])
    | CMYK => simp [ensure_image_format, h1, h2, pngEncodable]

/-- C9 witness: a PNG input is returned unchanged, a GIF input with an
alpha channel becomes an alpha-free PNG, and a CMYK TIFF comes back
unchanged. -/
theorem ensure_image_format_policy_witness :
    ensure_image_format (.image "PNG" .RGBA 5) = .image "PNG" .RGBA 5 ∧
    (∃ m p, ensure_image_format (.image "GIF" .RGBA 7) = .image "PNG" m p ∧
       hasAlphaChannel m = false) ∧
    ensure_image_format (.image "TIFF" .CMYK 9) = .image "TIFF" .CMYK 9 :=
  ⟨ensure_image_format_policy.1 .RGBA 5,
   (ensure_image_format_policy.2.2 "GIF" .RGBA 7 (by decide) (by decide)).1 rfl,
   (ensure_image_format_policy.2.2 "TIFF" .CMYK 9 (by decide) (by decide)).2 rfl⟩

/-! ## Claim C1 -/

lemma upload_to_api_ne_empty {net : Str → NetOutcome} {du : Str} {u : Str}
    (h : (upload_to_api net du).1 = some u) : u ≠ "" := by
  unfold upload_to_api at h
  dsimp only at h
  split at h
  · simp at h
  · simp at h
  · split at h
    · simp at h
    · split at h
      · simp at h
      · split at h
        · simp at h
        · split at h
          · simp at h
          · cases h
            assumption

lemma upload_result_ne_empty {fsys : FileSys} {net : Str → NetOutcome}
    {path : Str} {u : Str}
    (h : (upload_image_from_path fsys net path).1 = some u) : u ≠ "" := by
  unfold upload_image_from_path upload_image_from_bytes at h
  split at h
  · simp at h
  · split at h
    · simp at h
    · exact upload_to_api_ne_empty h

/-- C1 counterexample: a direct-origin message whose file exists does
invoke the upload pipeline, contradicting the claim that direct origin
never does. -/
theorem send_direct_upload_counterexample :
    fsysSmall.fexists "img.png" = true ∧
    (send_image_from_path fsysSmall netOK apiAlwaysOk
        (.direct "u1" "m1") "img.png").uploadInvoked = true := by
  decide

/-- C1 (amended): whenever the file exists, `send_image_from_path`
invokes the upload pipeline for every origin; with a URL obtained, the
group branch sends the uploaded URL and the direct branch sends the raw
file bytes (the URL does not enter the direct payload); when the upload
yields no URL the call aborts with no platform call, for every origin. -/
theorem send_image_upload_policy (fsys : FileSys) (net : Str → NetOutcome)
    (apiOk : PlatformCall → Bool) (origin : Origin) (path : Str)
    (hex : fsys.fexists path = true) :
    (send_image_from_path fsys net apiOk origin path).uploadInvoked = true ∧
    (∀ gid mid url, origin = .group gid mid →
       (upload_image_from_path fsys net path).1 = some url →
       (send_image_from_path fsys net apiOk origin path).platformCall =
         some (.toGroup gid "" mid url)) ∧
    (∀ uid mid url, origin = .direct uid mid →
       (upload_image_from_path fsys net path).1 = some url →
       (send_image_from_path fsys net apiOk origin path).platformCall =
         some (.toUser uid "" mid (fsys.fbytes path))) ∧
    ((upload_image_from_path fsys net path).1 = none →
       send_image_from_path fsys net apiOk origin path =
         { uploadInvoked := true, platformCall := none, result := false }) := by
  rcases hu : (upload_image_from_path fsys net path).1 with _ | u
  · refine ⟨?_, ?_, ?_, ?_⟩
    · simp [send_image_from_path, hex, hu]
    · intro gid mid url _ hurl
      exact absurd hurl (by simp)
    · intro uid mid url _ hurl
      exact absurd hurl (by simp)
    · intro _
      simp [send_image_from_path, hex, hu]
  · have hu0 : u ≠ "" := upload_result_ne_empty hu
    refine ⟨?_, ?_, ?_, ?_⟩
    · simp [send_image_from_path, hex, hu, hu0]
    · rintro gid mid url rfl hurl
      cases hurl
      simp [send_image_from_path, hex, hu, hu0]
    · rintro uid mid url rfl hurl
      cases hurl
      simp [send_image_from_path, hex, hu, hu0]
    · intro hnone
      exact absurd hnone (by simp)

/-- C1 witness: on a direct-origin message with an existing small file the
upload pipeline runs and the platform call carries the raw bytes. -/
theorem send_image_upload_policy_witness :
    (send_image_from_path fsysSmall netOK apiAlwaysOk
        (.direct "u9" "m9") "img.png").uploadInvoked = true ∧
    (send_image_from_path fsysSmall netOK apiAlwaysOk
        (.direct "u9" "m9") "img.png").platformCall =
      some (.toUser "u9" "" "m9" [1, 2, 3, 4]) :=
  ⟨(send_image_upload_policy fsysSmall netOK apiAlwaysOk
      (.direct "u9" "m9") "img.png" rfl).1,
   (send_image_upload_policy fsysSmall netOK apiAlwaysOk
      (.direct "u9" "m9") "img.png" rfl).2.2.1 "u9" "m9" "http://u/i.png"
      rfl (by decide)⟩

/-! ## Claim C5 -/

/-- C5: if some entry of the category matches the normalized query
exactly (by key, name or alias, case-insensitively), `find_resource`
returns an exactly-matching entry (the one the exact pass finds first),
never an entry matching only by containment. -/
theorem find_resource_exact_wins (fs : Str → Bool) (rm : ResourceManager)
    (category query : Str) (entries : CatMap)
    (hcat : getCategory rm category = some entries)
    (hex : ∃ kv ∈ entries, exactEntryMatch (stripStr (lowerStr query)) kv = true) :
    ∃ kv ∈ entries, exactEntryMatch (stripStr (lowerStr query)) kv = true ∧
      find_resource fs rm category query =
        some (buildResourceInfo fs rm.resource_dir category kv.1 kv.2) := by
  have hsome : (entries.find? (exactEntryMatch (stripStr (lowerStr query)))).isSome := by
    rw [List.find?_isSome]
    obtain ⟨kv, hmem, hkv⟩ := hex
    exact ⟨kv, hmem, hkv⟩
  obtain ⟨kv, hfind⟩ := Option.isSome_iff_exists.mp hsome
  refine ⟨kv, List.mem_of_find?_eq_some hfind, List.find?_some hfind, ?_⟩
  simp [find_resource, hcat, hfind]

/-- C5 witness: the spec example with the `rifle` and `riflex` entries and
the query `rifle`. -/
theorem find_resource_exact_wins_witness :
    ∃ kv ∈ rmC5.maps, exactEntryMatch (stripStr (lowerStr "rifle")) kv = true ∧
      find_resource fsNone rmC5 "maps" "rifle" =
        some (buildResourceInfo fsNone rmC5.resource_dir "maps" kv.1 kv.2) :=
  find_resource_exact_wins fsNone rmC5 "maps" "rifle" rmC5.maps (by decide) (by decide)

/-! ## Claim C3 -/

/-- C3 counterexample: in `rmC3.maps` only the second entry matches the
query `q` by key or name, yet `find_resource` returns the first entry
(whose alias matched in the same pass), so key/name matching is not
exhausted over all entries before alias matching is considered. -/
theorem find_resource_two_pass_counterexample :
    (∃ kv ∈ rmC3.maps, lowerStr kv.1 = "q" ∨ lowerStr (kv.2.name.getD "") = "q") ∧
    (∀ kv ∈ rmC3.maps,
       (lowerStr kv.1 = "q" ∨ lowerStr (kv.2.name.getD "") = "q") → kv.1 = "q") ∧
    (find_resource fsNone rmC3 "maps" "q").map ResourceInfo.key = some "a" := by
  decide

/-- C3 (amended): within each phase `find_resource` scans the entries
once in insertion order, checking key/name and the aliases of the same
entry together; the first entry matching by key, name or any alias in a
phase is returned, and the fuzzy pass is only consulted when the exact
pass matched no entry. -/
theorem find_resource_single_pass (fs : Str → Bool) (rm : ResourceManager)
    (category query : Str) (entries : CatMap)
    (hcat : getCategory rm category = some entries) :
    (∀ l1 kv l2, entries = l1 ++ kv :: l2 →
       exactEntryMatch (stripStr (lowerStr query)) kv = true →
       (∀ p ∈ l1, exactEntryMatch (stripStr (lowerStr query)) p = false) →
       find_resource fs rm category query =
         some (buildResourceInfo fs rm.resource_dir category kv.1 kv.2)) ∧
    (∀ l1 kv l2, entries = l1 ++ kv :: l2 →
       (∀ p ∈ entries, exactEntryMatch (stripStr (lowerStr query)) p = false) →
       fuzzyEntryMatch (stripStr (lowerStr query)) kv = true →
       (∀ p ∈ l1, fuzzyEntryMatch (stripStr (lowerStr query)) p = false) →
       find_resource fs rm category query =
         some (buildResourceInfo fs rm.resource_dir category kv.1 kv.2)) := by
  constructor
  · rintro l1 kv l2 rfl hkv hl1
    have hfind := find?_append_first _ l1 l2 kv hl1 hkv
    simp [find_resource, hcat, hfind]
  · rintro l1 kv l2 rfl hnone hkv hl1
    have hf1 : (l1 ++ kv :: l2).find? (exactEntryMatch (stripStr (lowerStr query))) = none :=
      List.find?_eq_none.mpr (by intro x hx; simp [hnone x hx])
    have hfind := find?_append_first _ l1 l2 kv hl1 hkv
    simp [find_resource, hcat, hf1, hfind]

/-- C3 witness: the amended single-pass rule evaluated on the fixture
where the alias of the first entry matches in the exact pass. -/
theorem find_resource_single_pass_witness :
    find_resource fsNone rmC3 "maps" "q" =
      some (buildResourceInfo fsNone rmC3.resource_dir "maps" "a"
        { name := some "A", aliases := ["q"] }) :=
  (find_resource_single_pass fsNone rmC3 "maps" "q" rmC3.maps (by decide)).1
    [] ("a", { name := some "A", aliases := ["q"] }) [("q", { name := some "Q" })]
    (by decide) (by decide) (by intro p hp; exact absurd hp (List.not_mem_nil p))

/-! ## Claim C10 -/

/-- C10: on a non-empty category mapping a query of only whitespace
characters (including the empty query) never makes `find_resource` return
`none`; moreover, when no entry has an empty key, an empty code-computed
name or an empty alias, the fuzzy pass returns the first entry in
insertion order. -/
theorem find_resource_whitespace_query (fs : Str → Bool) (rm : ResourceManager)
    (category query : Str) (entries : CatMap)
    (hcat : getCategory rm category = some entries)
    (hws : ∀ c ∈ query.data, isPySpace c = true) :
    (entries ≠ [] → (find_resource fs rm category query).isSome = true) ∧
    (∀ kv tl, entries = kv :: tl →
       (∀ p ∈ entries, p.1 ≠ "" ∧ p.2.name.getD "" ≠ "" ∧ ∀ a ∈ p.2.aliases, a ≠ "") →
       find_resource fs rm category query =
         some (buildResourceInfo fs rm.resource_dir category kv.1 kv.2)) := by
  have hq : stripStr (lowerStr query) = "" := normalized_whitespace_query hws
  constructor
  · intro hne
    obtain ⟨kv, tl, rfl⟩ := List.exists_cons_of_ne_nil hne
    rcases hfe : (kv :: tl).find? (exactEntryMatch (stripStr (lowerStr query))) with _ | kv2
    · have hfz : (kv :: tl).find? (fuzzyEntryMatch (stripStr (lowerStr query))) = some kv := by
        rw [hq]
        exact List.find?_cons_of_pos _ (by simp [fuzzyEntryMatch, containsStr_empty])
      simp [find_resource, hcat, hfe, hfz]
    · simp [find_resource, hcat, hfe]
  · rintro kv tl rfl hfields
    have hfe : (kv :: tl).find? (exactEntryMatch (stripStr (lowerStr query))) = none := by
      rw [hq]
      refine List.find?_eq_none.mpr ?_
      intro p hp
      obtain ⟨h1, h2, h3⟩ := hfields p hp
      simp [exactEntryMatch, lowerStr_eq_empty_iff, h1, h2]
      intro ha
      exact h3 "" ha rfl
    have hfz : (kv :: tl).find? (fuzzyEntryMatch (stripStr (lowerStr query))) = some kv := by
      rw [hq]
      exact List.find?_cons_of_pos _ (by simp [fuzzyEntryMatch, containsStr_empty])
    simp [find_resource, hcat, hfe, hfz]

/-- C10 witness: the non-empty arc fixture queried with two spaces. -/
theorem find_resource_whitespace_query_witness :
    (find_resource fsNone rmC10 "arc" "  ").isSome = true ∧
    find_resource fsNone rmC10 "arc" "  " =
      some (buildResourceInfo fsNone rmC10.resource_dir "arc" "entry"
        { name := some "Entry" }) :=
  ⟨(find_resource_whitespace_query fsNone rmC10 "arc" "  " rmC10.arc
      (by decide) (by decide)).1 (by decide),
   (find_resource_whitespace_query fsNone rmC10 "arc" "  " rmC10.arc
      (by decide) (by decide)).2 ("entry", { name := some "Entry" }) [] rfl (by decide)⟩

/-! ## Claim C4 -/

/-- C4 counterexample: with storage level keys `1` and `01`, which parse
to the same integer, the computed available-levels list is `[1, 1]`:
sorted, but neither strictly ascending nor duplicate-free. -/
theorem weapon_levels_duplicate_counterexample :
    (find_weapon_with_level fsNone rmC4 "gun" none).map
        WeaponLevelResult.levels_available = some [1, 1] ∧
    ¬ List.Sorted (· < ·) ([1, 1] : List Int) ∧ ¬ ([1, 1] : List Int).Nodup := by
  refine ⟨by decide, by decide, by decide⟩

/-- C4 (amended): the available-levels list of any `find_weapon_with_level`
result is always sorted non-decreasingly; it is strictly ascending and
duplicate-free whenever the parsed level keys of the stored weapons are
pairwise distinct integers, but distinct string keys parsing to the same
integer (such as `1` and `01`) stay as duplicates. -/
theorem weapon_levels_sorted (fs : Str → Bool) (rm : ResourceManager)
    (query : Str) (lvl : Option Int) (r : WeaponLevelResult)
    (h : find_weapon_with_level fs rm query lvl = some r) :
    List.Sorted (· ≤ ·) r.levels_available ∧
    ((∀ kv ∈ rm.weapons, (kv.2.levels.map (fun e => strToInt e.1)).Nodup) →
       List.Sorted (· < ·) r.levels_available ∧ r.levels_available.Nodup) := by
  unfold find_weapon_with_level at h
  rcases hw : find_resource fs rm "weapons" query with _ | weapon
  · rw [hw] at h
    exact absurd h (by simp)
  · rw [hw] at h
    dsimp only at h
    by_cases hld : ((List.lookup weapon.key rm.weapons).getD {}).levels = []
    · rw [if_pos hld] at h
      obtain rfl := Option.some.inj h
      exact ⟨List.sorted_nil, fun _ => ⟨List.sorted_nil, List.nodup_nil⟩⟩
    · rw [if_neg hld] at h
      have hs : List.Sorted (· ≤ ·)
          (List.insertionSort (· ≤ ·)
            ((((List.lookup weapon.key rm.weapons).getD {}).levels).map
              (fun kv => strToInt kv.1))) :=
        List.sorted_insertionSort _ _
      have havail : r.levels_available =
          List.insertionSort (· ≤ ·)
            ((((List.lookup weapon.key rm.weapons).getD {}).levels).map
              (fun kv => strToInt kv.1)) := by
        rcases lvl with _ | lv
        · dsimp only at h
          obtain rfl := Option.some.inj h
          rfl
        · dsimp only at h
          by_cases hmem : lv ∉ List.insertionSort (· ≤ ·)
              ((((List.lookup weapon.key rm.weapons).getD {}).levels).map
                (fun kv => strToInt kv.1))
          · rw [if_pos hmem] at h
            obtain rfl := Option.some.inj h
            rfl
          · rw [if_neg hmem] at h
            obtain rfl := Option.some.inj h
            rfl
      refine ⟨havail ▸ hs, fun hnd => ?_⟩
      have hnodup : ((((List.lookup weapon.key rm.weapons).getD {}).levels).map
          (fun kv => strToInt kv.1)).Nodup := by
        rcases hlk : List.lookup weapon.key rm.weapons with _ | res
        · rw [hlk] at hld
          simp at hld
        · have hm := lookup_mem hlk
          have hres := hnd (weapon.key, res) hm
          simpa using hres
      have hnodup2 : (List.insertionSort (· ≤ ·)
          ((((List.lookup weapon.key rm.weapons).getD {}).levels).map
            (fun kv => strToInt kv.1))).Nodup :=
        ((List.perm_insertionSort _ _).nodup_iff).mpr hnodup
      rw [havail]
      exact ⟨sorted_lt_of_sorted_le_nodup hs hnodup2, hnodup2⟩

/-- C4 witness: the amended statement evaluated on the weapon with the
distinct level keys 1 and 2. -/
theorem weapon_levels_sorted_witness :
    List.Sorted (· ≤ ·) r7none.levels_available ∧
    (List.Sorted (· < ·) r7none.levels_available ∧ r7none.levels_available.Nodup) :=
  ⟨(weapon_levels_sorted fsNone rmC7 "gun" none r7none (by decide)).1,
   (weapon_levels_sorted fsNone rmC7 "gun" none r7none (by decide)).2 (by decide)⟩

/-! ## Claim C7 -/

/-- C7: for a weapon with a level mapping, requesting a level absent from
the available list yields `need_level_selection = true` with
`invalid_level` set to exactly the requested value and the available list
identical to the one of the request without a level. -/
theorem weapon_invalid_level (fs : Str → Bool) (rm : ResourceManager)
    (query : Str) (lv : Int) (r0 : WeaponLevelResult)
    (h0 : find_weapon_with_level fs rm query none = some r0)
    (hl : r0.has_levels = true)
    (hlv : lv ∉ r0.levels_available) :
    find_weapon_with_level fs rm query (some lv) =
      some { has_levels := true
             weapon_data := r0.weapon_data
             levels_available := r0.levels_available
             invalid_level := some lv
             need_level_selection := some true } := by
  unfold find_weapon_with_level at h0 ⊢
  rcases hw : find_resource fs rm "weapons" query with _ | weapon
  · rw [hw] at h0
    exact absurd h0 (by simp)
  · rw [hw] at h0
    dsimp only at h0 ⊢
    by_cases hld : ((List.lookup weapon.key rm.weapons).getD {}).levels = []
    · rw [if_pos hld] at h0
      obtain rfl := Option.some.inj h0
      simp at hl
    · rw [if_neg hld] at h0
      rw [if_neg hld]
      obtain rfl := Option.some.inj h0
      rw [if_pos hlv]

/-- C7 witness: the weapon with levels 1 and 2, requesting level 5. -/
theorem weapon_invalid_level_witness :
    find_weapon_with_level fsNone rmC7 "gun" (some 5) =
      some { has_levels := true
             weapon_data := r7none.weapon_data
             levels_available := r7none.levels_available
             invalid_level := some 5
             need_level_selection := some true } :=
  weapon_invalid_level fsNone rmC7 "gun" 5 r7none (by decide) rfl (by decide)
